import Mathlib

/-!
Verification of the MicroSim evaluation-engine specification against the
repository test fixtures.  The repository ships three fixture programs
(tests_c/03_if_statement.c, 04_functions.c, 05_comprehensive.c) written in a
small C subset; the evaluation engine itself is not part of the visible
source, so the engine is modelled here from the specification (symbol table
with mangled shadow slots, pure expression evaluator, statement executor
with a tagged outcome, function invoker with reentrancy protection, program
driver).  The fixture programs are translated from the source files.
-/

namespace MicroSim

/-- Modelled from the spec: the error kinds of section 7; the statement
executor itself is missing from the source tree.  Every error aborts the
entire execution. -/
inductive Err where
  | UnboundVariable
  | UnsupportedOperator
  | UnsupportedStatement
  | MissingReturn
  | ReentrantCall
deriving DecidableEq

/-- Modelled from the spec: the Symbol Table maps a mangled name to a slot
holding one signed integer; modelled as an association list. -/
abbrev SymTab := List (String × Int)

/-- Modelled from the spec: look a mangled name up in the table. -/
def lookupSlot : SymTab → String → Option Int
  | [], _ => none
  | (k, v) :: rest, m => if k = m then some v else lookupSlot rest m

/-- Modelled from the spec: declare creates a zero-valued slot if absent and
is idempotent. -/
def declare (st : SymTab) (m : String) : SymTab :=
  match lookupSlot st m with
  | some _ => st
  | none => (m, 0) :: st

/-- Modelled from the spec: read returns the current integer value and fails
with UnboundVariable if the name was never declared. -/
def readSlot (st : SymTab) (m : String) : Except Err Int :=
  match lookupSlot st m with
  | some v => Except.ok v
  | none => Except.error Err.UnboundVariable

/-- Modelled from the spec: write overwrites the value of an existing slot
and fails with UnboundVariable if the slot is absent. -/
def writeSlot : SymTab → String → Int → Except Err SymTab
  | [], _, _ => Except.error Err.UnboundVariable
  | (k, v) :: rest, m, x =>
    if k = m then Except.ok ((k, x) :: rest)
    else
      match writeSlot rest m x with
      | Except.error er => Except.error er
      | Except.ok rest1 => Except.ok ((k, v) :: rest1)

/-- Modelled from the spec: the mangled name of identifier x inside the
function named q, for example my_decrement.x. -/
def mangle (q x : String) : String := q ++ "." ++ x

/-- Arithmetic expressions of the fixture language: integer literals,
variable references by unmangled source name, addition and subtraction. -/
inductive Expr where
  | lit (n : Int)
  | var (x : String)
  | add (a b : Expr)
  | sub (a b : Expr)
deriving DecidableEq

/-- Comparison expressions; the fixtures use only the greater-than operator,
which yields a boolean. -/
inductive Cond where
  | gt (a b : Expr)
deriving DecidableEq

/-- Modelled from the spec: the Expression Evaluator; a pure function of the
current symbol-table state, resolving unmangled names through the enclosing
qualifier q. -/
def evalExpr (q : String) (st : SymTab) : Expr → Except Err Int
  | Expr.lit n => Except.ok n
  | Expr.var x => readSlot st (mangle q x)
  | Expr.add a b =>
    match evalExpr q st a, evalExpr q st b with
    | Except.ok av, Except.ok bv => Except.ok (av + bv)
    | Except.error er, _ => Except.error er
    | _, Except.error er => Except.error er
  | Expr.sub a b =>
    match evalExpr q st a, evalExpr q st b with
    | Except.ok av, Except.ok bv => Except.ok (av - bv)
    | Except.error er, _ => Except.error er
    | _, Except.error er => Except.error er

/-- Modelled from the spec: evaluating a comparison yields a boolean. -/
def evalCond (q : String) (st : SymTab) : Cond → Except Err Bool
  | Cond.gt a b =>
    match evalExpr q st a, evalExpr q st b with
    | Except.ok av, Except.ok bv => Except.ok (decide (bv < av))
    | Except.error er, _ => Except.error er
    | _, Except.error er => Except.error er

/-- The statement kinds of the fixture language: bare declaration,
declaration with initializer, assignment, assignment whose right side is a
function call, a bare call whose result is discarded, if, while, return. -/
inductive Stmt where
  | declBare (x : String)
  | declInit (x : String) (e : Expr)
  | assign (x : String) (e : Expr)
  | assignCall (x : String) (f : String) (arg : Expr)
  | callStmt (f : String) (arg : Expr)
  | ifS (c : Cond) (body : List Stmt)
  | whileS (c : Cond) (body : List Stmt)
  | ret (e : Expr)

/-- Modelled from the spec: a Function Definition has exactly one formal
parameter name and a statement-sequence body; return is a statement inside
the body. -/
structure FuncDef where
  param : String
  body : List Stmt

/-- Modelled from the spec: the function table of a Program. -/
abbrev Funcs := List (String × FuncDef)

/-- Look a function definition up by name. -/
def lookupFn : Funcs → String → Option FuncDef
  | [], _ => none
  | (k, d) :: rest, f => if k = f then some d else lookupFn rest f

/-- Modelled from the spec: the tagged outcome of executing a statement
sequence, either falling through normally or exiting with a returned
value. -/
inductive Outcome where
  | normal
  | returned (v : Int)
deriving DecidableEq

/-- The result of one execution step: none means the fuel ran out, otherwise
an error or an outcome together with the updated symbol table. -/
abbrev ExecM := Option (Except Err (Outcome × SymTab))

/-- Modelled from the spec: the Function Invoker.  The run argument executes
a statement sequence (the tie to the Statement Executor).  A call to a
function already active on the chain fails with ReentrantCall before any
slot is touched; otherwise the argument value is written into the mangled
parameter slot (declare if absent, then write), the body is executed under
the callee qualifier with the callee pushed onto the chain, and the value
carried by the first return is produced; a body that completes without a
return fails with MissingReturn. -/
def callFn (run : List String → String → SymTab → List Stmt → ExecM)
    (P : Funcs) (active : List String) (st : SymTab) (f : String) (v : Int) :
    Option (Except Err (Int × SymTab)) :=
  if f ∈ active then some (Except.error Err.ReentrantCall)
  else
    match lookupFn P f with
    | none => some (Except.error Err.UnboundVariable)
    | some fd =>
      match writeSlot (declare st (mangle f fd.param)) (mangle f fd.param) v with
      | Except.error er => some (Except.error er)
      | Except.ok st2 =>
        match run (f :: active) f st2 fd.body with
        | none => none
        | some (Except.error er) => some (Except.error er)
        | some (Except.ok (Outcome.normal, _)) => some (Except.error Err.MissingReturn)
        | some (Except.ok (Outcome.returned rv, st3)) => some (Except.ok (rv, st3))

/-- Modelled from the spec: the Statement Executor for a single statement.
The run argument executes a nested statement sequence; active is the chain
of currently executing functions, q the mangling qualifier of the current
function.  A while loop re-enters itself through run on a singleton
sequence; a return produces the returned outcome, which callers propagate
as a non-local exit. -/
def execStmt1 (run : List String → String → SymTab → List Stmt → ExecM)
    (P : Funcs) (active : List String) (q : String) (st : SymTab) :
    Stmt → ExecM
  | Stmt.declBare x => some (Except.ok (Outcome.normal, declare st (mangle q x)))
  | Stmt.declInit x e =>
    match evalExpr q (declare st (mangle q x)) e with
    | Except.error er => some (Except.error er)
    | Except.ok v =>
      match writeSlot (declare st (mangle q x)) (mangle q x) v with
      | Except.error er => some (Except.error er)
      | Except.ok st2 => some (Except.ok (Outcome.normal, st2))
  | Stmt.assign x e =>
    match evalExpr q st e with
    | Except.error er => some (Except.error er)
    | Except.ok v =>
      match writeSlot st (mangle q x) v with
      | Except.error er => some (Except.error er)
      | Except.ok st2 => some (Except.ok (Outcome.normal, st2))
  | Stmt.assignCall x f a =>
    match evalExpr q st a with
    | Except.error er => some (Except.error er)
    | Except.ok v =>
      match callFn run P active st f v with
      | none => none
      | some (Except.error er) => some (Except.error er)
      | some (Except.ok (rv, st1)) =>
        match writeSlot st1 (mangle q x) rv with
        | Except.error er => some (Except.error er)
        | Except.ok st2 => some (Except.ok (Outcome.normal, st2))
  | Stmt.callStmt f a =>
    match evalExpr q st a with
    | Except.error er => some (Except.error er)
    | Except.ok v =>
      match callFn run P active st f v with
      | none => none
      | some (Except.error er) => some (Except.error er)
      | some (Except.ok (_, st1)) => some (Except.ok (Outcome.normal, st1))
  | Stmt.ifS c body =>
    match evalCond q st c with
    | Except.error er => some (Except.error er)
    | Except.ok b =>
      if b then run active q st body else some (Except.ok (Outcome.normal, st))
  | Stmt.whileS c body =>
    match evalCond q st c with
    | Except.error er => some (Except.error er)
    | Except.ok b =>
      if b then
        match run active q st body with
        | none => none
        | some (Except.error er) => some (Except.error er)
        | some (Except.ok (Outcome.returned v, st1)) =>
          some (Except.ok (Outcome.returned v, st1))
        | some (Except.ok (Outcome.normal, st1)) =>
          run active q st1 [Stmt.whileS c body]
      else some (Except.ok (Outcome.normal, st))
  | Stmt.ret e =>
    match evalExpr q st e with
    | Except.error er => some (Except.error er)
    | Except.ok v => some (Except.ok (Outcome.returned v, st))

/-- Modelled from the spec: the Statement Executor on a statement sequence,
with a fuel bound making the recursion through while loops and calls
well-founded; none signals exhausted fuel, never a program result.  A
returned outcome stops the sequence immediately. -/
def execSeq (P : Funcs) : Nat → List String → String → SymTab →
    List Stmt → ExecM
  | 0, _, _, _, _ => none
  | _ + 1, _, _, st, [] => some (Except.ok (Outcome.normal, st))
  | fuel + 1, active, q, st, s :: rest =>
    match execStmt1 (execSeq P fuel) P active q st s with
    | none => none
    | some (Except.error er) => some (Except.error er)
    | some (Except.ok (Outcome.returned v, st1)) =>
      some (Except.ok (Outcome.returned v, st1))
    | some (Except.ok (Outcome.normal, st1)) => execSeq P fuel active q st1 rest

/-- Modelled from the spec: a Program is a function table plus the body of
the entry function main. -/
structure Program where
  funcs : Funcs
  mainBody : List Stmt

/-- Modelled from the spec: the Program Driver executes the main body top to
bottom with qualifier main over an initially empty symbol table; the final
observable output is the full symbol table. -/
def runProgram (prog : Program) (fuel : Nat) : Option (Except Err SymTab) :=
  match execSeq prog.funcs fuel [] "main" [] prog.mainBody with
  | none => none
  | some (Except.error er) => some (Except.error er)
  | some (Except.ok (_, st)) => some (Except.ok st)

/-- Fixture 03 (tests_c/03_if_statement.c): main declares x = 10, y = 5,
z = 20, then runs two if statements, the first taken, the second not. -/
def prog03 : Program where
  funcs := []
  mainBody :=
    [ Stmt.declInit "x" (Expr.lit 10),
      Stmt.declInit "y" (Expr.lit 5),
      Stmt.declInit "z" (Expr.lit 20),
      Stmt.ifS (Cond.gt (Expr.var "x") (Expr.var "y"))
        [Stmt.assign "z" (Expr.sub (Expr.var "z") (Expr.lit 10))],
      Stmt.ifS (Cond.gt (Expr.var "y") (Expr.var "x"))
        [Stmt.assign "z" (Expr.sub (Expr.var "z") (Expr.lit 1))] ]

/-- Fixture 04 (tests_c/04_functions.c): my_decrement decrements its
parameter and returns it. -/
def myDecrementDef : FuncDef where
  param := "x"
  body :=
    [ Stmt.assign "x" (Expr.sub (Expr.var "x") (Expr.lit 1)),
      Stmt.ret (Expr.var "x") ]

/-- Fixture 04 (tests_c/04_functions.c): main calls my_decrement with a
variable, then with a literal, then discards a third call result. -/
def prog04 : Program where
  funcs := [("my_decrement", myDecrementDef)]
  mainBody :=
    [ Stmt.declBare "initial_val",
      Stmt.declBare "final_result",
      Stmt.assign "initial_val" (Expr.lit 10),
      Stmt.assign "final_result" (Expr.lit 0),
      Stmt.assignCall "final_result" "my_decrement" (Expr.var "initial_val"),
      Stmt.assignCall "final_result" "my_decrement" (Expr.lit 5),
      Stmt.callStmt "my_decrement" (Expr.var "final_result") ]

/-- Fixture 05 (tests_c/05_comprehensive.c): process_number decrements its
argument when it exceeds the threshold 2 and returns it unchanged
otherwise. -/
def processNumberDef : FuncDef where
  param := "num"
  body :=
    [ Stmt.declInit "threshold" (Expr.lit 2),
      Stmt.declBare "processed_val_in_func",
      Stmt.assign "processed_val_in_func" (Expr.var "num"),
      Stmt.ifS (Cond.gt (Expr.var "processed_val_in_func") (Expr.var "threshold"))
        [Stmt.assign "processed_val_in_func"
          (Expr.sub (Expr.var "processed_val_in_func") (Expr.lit 1))],
      Stmt.ret (Expr.var "processed_val_in_func") ]

/-- Fixture 05 (tests_c/05_comprehensive.c): the while condition of main. -/
def loopCond : Cond := Cond.gt (Expr.var "loop_counter") (Expr.var "upper_limit")

/-- Fixture 05 (tests_c/05_comprehensive.c): the while body of main. -/
def loopBody : List Stmt :=
  [ Stmt.assignCall "returned_from_func" "process_number" (Expr.var "loop_counter"),
    Stmt.assign "loop_counter" (Expr.var "returned_from_func") ]

/-- Fixture 05 (tests_c/05_comprehensive.c): main counts loop_counter down
from 10 through process_number while it exceeds upper_limit 5, then runs a
final if against lower_limit 1. -/
def prog05 : Program where
  funcs := [("process_number", processNumberDef)]
  mainBody :=
    [ Stmt.declBare "loop_counter",
      Stmt.declInit "upper_limit" (Expr.lit 5),
      Stmt.declInit "lower_limit" (Expr.lit 1),
      Stmt.declBare "returned_from_func",
      Stmt.assign "loop_counter" (Expr.lit 10),
      Stmt.assign "returned_from_func" (Expr.lit 0),
      Stmt.whileS loopCond loopBody,
      Stmt.ifS (Cond.gt (Expr.var "loop_counter") (Expr.var "lower_limit"))
        [Stmt.assign "returned_from_func"
          (Expr.sub (Expr.var "returned_from_func") (Expr.lit 1))] ]

/-- Symbol-table state of fixture 05 just before the while loop. -/
def loopState0 : SymTab :=
  [("main.returned_from_func", 0), ("main.lower_limit", 1),
   ("main.upper_limit", 5), ("main.loop_counter", 10)]

/-- Fixture 05 state after one loop iteration. -/
def loopState1 : SymTab :=
  [("process_number.processed_val_in_func", 9), ("process_number.threshold", 2),
   ("process_number.num", 10), ("main.returned_from_func", 9),
   ("main.lower_limit", 1), ("main.upper_limit", 5), ("main.loop_counter", 9)]

/-- Fixture 05 state after two loop iterations. -/
def loopState2 : SymTab :=
  [("process_number.processed_val_in_func", 8), ("process_number.threshold", 2),
   ("process_number.num", 9), ("main.returned_from_func", 8),
   ("main.lower_limit", 1), ("main.upper_limit", 5), ("main.loop_counter", 8)]

/-- Fixture 05 state after three loop iterations. -/
def loopState3 : SymTab :=
  [("process_number.processed_val_in_func", 7), ("process_number.threshold", 2),
   ("process_number.num", 8), ("main.returned_from_func", 7),
   ("main.lower_limit", 1), ("main.upper_limit", 5), ("main.loop_counter", 7)]

/-- Fixture 05 state after four loop iterations. -/
def loopState4 : SymTab :=
  [("process_number.processed_val_in_func", 6), ("process_number.threshold", 2),
   ("process_number.num", 7), ("main.returned_from_func", 6),
   ("main.lower_limit", 1), ("main.upper_limit", 5), ("main.loop_counter", 6)]

/-- Fixture 05 state after five loop iterations, where the loop exits. -/
def loopState5 : SymTab :=
  [("process_number.processed_val_in_func", 5), ("process_number.threshold", 2),
   ("process_number.num", 6), ("main.returned_from_func", 5),
   ("main.lower_limit", 1), ("main.upper_limit", 5), ("main.loop_counter", 5)]

/-- Fixture 05 final state after the trailing if statement. -/
def finalState05 : SymTab :=
  [("process_number.processed_val_in_func", 5), ("process_number.threshold", 2),
   ("process_number.num", 6), ("main.returned_from_func", 4),
   ("main.lower_limit", 1), ("main.upper_limit", 5), ("main.loop_counter", 5)]

/-- Fixture 04 final state. -/
def finalState04 : SymTab :=
  [("my_decrement.x", 3), ("main.final_result", 4), ("main.initial_val", 10)]

/-- Fixture 03 final state. -/
def finalState03 : SymTab := [("main.z", 10), ("main.y", 5), ("main.x", 10)]

/-- Pure update of an existing slot, the successful case of writeSlot. -/
def updateSlot : SymTab → String → Int → SymTab
  | [], _, _ => []
  | (k, w) :: rest, m, v =>
    if k = m then (k, v) :: rest else (k, w) :: updateSlot rest m v

mutual

/-- Whether a statement contains no while statement, defined mutually with
the check on statement sequences. -/
def stmtWhileFree : Stmt → Bool
  | Stmt.ifS _ body => seqWhileFree body
  | Stmt.whileS _ _ => false
  | _ => true

/-- Whether a statement sequence contains no while statement. -/
def seqWhileFree : List Stmt → Bool
  | [] => true
  | s :: rest => stmtWhileFree s && seqWhileFree rest

end

/-- Whether a whole program contains no while statement, in the main body
or in any function body. -/
def progWhileFree (prog : Program) : Bool :=
  seqWhileFree prog.mainBody && prog.funcs.all fun p => seqWhileFree p.2.body

/-- Pointwise refinement between two sequence executors: wherever the first
produces a result rather than running out of fuel, the second produces the
same result. -/
def runLE (run run' : List String → String → SymTab → List Stmt → ExecM) : Prop :=
  ∀ a q st l r, run a q st l = some r → run' a q st l = some r

/-- Looking up a name right after declaring it yields its previous value if
it was present and zero otherwise. -/
theorem lookupSlot_declare_self (st : SymTab) (m : String) :
    lookupSlot (declare st m) m = some ((lookupSlot st m).getD 0) := by
  unfold declare
  cases h : lookupSlot st m with
  | none => simp [lookupSlot]
  | some v => simp [h]

/-- Declaring one name leaves every other name unchanged. -/
theorem lookupSlot_declare_ne (st : SymTab) (m m' : String) (h : m' ≠ m) :
    lookupSlot (declare st m) m' = lookupSlot st m' := by
  unfold declare
  cases hm : lookupSlot st m with
  | some v => rfl
  | none => simp [lookupSlot, Ne.symm h]

/-- Declaring an already present name is the identity on the table. -/
theorem declare_present (st : SymTab) (m : String) (v : Int)
    (h : lookupSlot st m = some v) : declare st m = st := by
  unfold declare
  rw [h]

/-- Declaring twice equals declaring once. -/
theorem declare_idem (st : SymTab) (m : String) :
    declare (declare st m) m = declare st m :=
  declare_present _ _ _ (lookupSlot_declare_self st m)

/-- Writing a present name succeeds and produces the pure update. -/
theorem writeSlot_present (st : SymTab) (m : String) (w v : Int)
    (h : lookupSlot st m = some w) :
    writeSlot st m v = Except.ok (updateSlot st m v) := by
  induction st with
  | nil => simp [lookupSlot] at h
  | cons p rest ih =>
    obtain ⟨k, u⟩ := p
    by_cases hk : k = m
    · simp [writeSlot, updateSlot, hk]
    · simp only [lookupSlot, if_neg hk] at h
      simp [writeSlot, updateSlot, hk, ih h]

/-- Writing an absent name fails with UnboundVariable. -/
theorem writeSlot_absent (st : SymTab) (m : String) (v : Int)
    (h : lookupSlot st m = none) :
    writeSlot st m v = Except.error Err.UnboundVariable := by
  induction st with
  | nil => rfl
  | cons p rest ih =>
    obtain ⟨k, u⟩ := p
    by_cases hk : k = m
    · simp [lookupSlot, hk] at h
    · simp only [lookupSlot, if_neg hk] at h
      simp [writeSlot, hk, ih h]

/-- After a pure update of a present name, reading it yields the new
value. -/
theorem lookupSlot_update_self (st : SymTab) (m : String) (w v : Int)
    (h : lookupSlot st m = some w) :
    lookupSlot (updateSlot st m v) m = some v := by
  induction st with
  | nil => simp [lookupSlot] at h
  | cons p rest ih =>
    obtain ⟨k, u⟩ := p
    by_cases hk : k = m
    · simp [lookupSlot, updateSlot, hk]
    · simp only [lookupSlot, if_neg hk] at h
      simp [lookupSlot, updateSlot, hk, ih h]

/-- A pure update of one name leaves every other name unchanged. -/
theorem lookupSlot_update_ne (st : SymTab) (m m' : String) (v : Int)
    (h : m' ≠ m) :
    lookupSlot (updateSlot st m v) m' = lookupSlot st m' := by
  induction st with
  | nil => rfl
  | cons p rest ih =>
    obtain ⟨k, u⟩ := p
    by_cases hk : k = m
    · subst hk
      simp [lookupSlot, updateSlot, Ne.symm h]
    · by_cases hk' : k = m'
      · simp [lookupSlot, updateSlot, hk, hk', h]
      · simp [lookupSlot, updateSlot, hk, hk', ih]

/-- A successful write changes no name other than the written one. -/
theorem writeSlot_ok_lookup_ne (st st' : SymTab) (m m' : String) (v : Int)
    (hw : writeSlot st m v = Except.ok st') (h : m' ≠ m) :
    lookupSlot st' m' = lookupSlot st m' := by
  induction st generalizing st' with
  | nil => simp [writeSlot] at hw
  | cons p rest ih =>
    obtain ⟨k, u⟩ := p
    by_cases hk : k = m
    · simp only [writeSlot, if_pos hk, Except.ok.injEq] at hw
      subst hw
      subst hk
      simp [lookupSlot, Ne.symm h]
    · simp only [writeSlot, if_neg hk] at hw
      cases hr : writeSlot rest m v with
      | error er => rw [hr] at hw; exact absurd hw (by simp)
      | ok rest' =>
        rw [hr] at hw
        simp only [Except.ok.injEq] at hw
        subst hw
        simp [lookupSlot, ih rest' hr]

/-- A successful write makes the written name hold the written value. -/
theorem writeSlot_ok_lookup_self (st st' : SymTab) (m : String) (v : Int)
    (hw : writeSlot st m v = Except.ok st') :
    lookupSlot st' m = some v := by
  induction st generalizing st' with
  | nil => simp [writeSlot] at hw
  | cons p rest ih =>
    obtain ⟨k, u⟩ := p
    by_cases hk : k = m
    · simp only [writeSlot, if_pos hk, Except.ok.injEq] at hw
      subst hw
      simp [lookupSlot, hk]
    · simp only [writeSlot, if_neg hk] at hw
      cases hr : writeSlot rest m v with
      | error er => rw [hr] at hw; exact absurd hw (by simp)
      | ok rest' =>
        rw [hr] at hw
        simp only [Except.ok.injEq] at hw
        subst hw
        simp [lookupSlot, hk, ih rest' hr]

/-- Binding a parameter, declare then write, always succeeds. -/
theorem writeSlot_declare (st : SymTab) (m : String) (v : Int) :
    writeSlot (declare st m) m v =
      Except.ok (updateSlot (declare st m) m v) :=
  writeSlot_present _ _ _ _ (lookupSlot_declare_self st m)

/-- C1: in fixture 04, my_decrement applied to initial_val 10 yields 9 into
final_result, the second call my_decrement applied to 5 yields 4 into
final_result, all three calls mutate the one shared mangled slot named
my_decrement.x (exactly one such slot exists in the final table, holding 3
after the third call), and at the end of main the slot main.final_result
holds 4. -/
theorem fixture04_calls_share_one_slot :
    execSeq prog04.funcs 100 [] "main" [] (prog04.mainBody.take 5) =
      some (Except.ok (Outcome.normal,
        [("my_decrement.x", 9), ("main.final_result", 9), ("main.initial_val", 10)])) ∧
    execSeq prog04.funcs 100 [] "main" [] (prog04.mainBody.take 6) =
      some (Except.ok (Outcome.normal,
        [("my_decrement.x", 4), ("main.final_result", 4), ("main.initial_val", 10)])) ∧
    runProgram prog04 100 = some (Except.ok finalState04) ∧
    (finalState04.filter (fun p => p.1 = "my_decrement.x")).length = 1 ∧
    readSlot finalState04 "my_decrement.x" = Except.ok 3 ∧
    readSlot finalState04 "main.final_result" = Except.ok 4 :=
  ⟨rfl, rfl, rfl, rfl, rfl, rfl⟩

/-- C2: in fixture 03 the first if condition is true and the second false;
the untaken second if leaves the state entirely unchanged, and the final
state is x = 10, y = 5, z = 10. -/
theorem fixture03_false_if_skipped :
    execSeq prog03.funcs 100 [] "main" [] (prog03.mainBody.take 4) =
      some (Except.ok (Outcome.normal, finalState03)) ∧
    evalCond "main" finalState03 (Cond.gt (Expr.var "y") (Expr.var "x")) =
      Except.ok false ∧
    execSeq prog03.funcs 100 [] "main" finalState03
      [Stmt.ifS (Cond.gt (Expr.var "y") (Expr.var "x"))
        [Stmt.assign "z" (Expr.sub (Expr.var "z") (Expr.lit 1))]] =
      some (Except.ok (Outcome.normal, finalState03)) ∧
    runProgram prog03 100 = some (Except.ok finalState03) ∧
    readSlot finalState03 "main.x" = Except.ok 10 ∧
    readSlot finalState03 "main.y" = Except.ok 5 ∧
    readSlot finalState03 "main.z" = Except.ok 10 :=
  ⟨rfl, rfl, rfl, rfl, rfl, rfl, rfl⟩

/-- C3: the while loop of fixture 05 terminates after exactly five
iterations: starting from the pre-loop state the condition is true at
loop_counter values 10, 9, 8, 7, 6, each body execution steps to the next
state, the condition is false at loop_counter 5, the whole loop statement
executes to the state with loop_counter 5, and running the loop statement
again from that state performs zero iterations and leaves it unchanged. -/
theorem fixture05_loop_five_iterations :
    execSeq prog05.funcs 100 [] "main" [] (prog05.mainBody.take 6) =
      some (Except.ok (Outcome.normal, loopState0)) ∧
    (evalCond "main" loopState0 loopCond = Except.ok true ∧
     evalCond "main" loopState1 loopCond = Except.ok true ∧
     evalCond "main" loopState2 loopCond = Except.ok true ∧
     evalCond "main" loopState3 loopCond = Except.ok true ∧
     evalCond "main" loopState4 loopCond = Except.ok true ∧
     evalCond "main" loopState5 loopCond = Except.ok false) ∧
    (readSlot loopState0 "main.loop_counter" = Except.ok 10 ∧
     readSlot loopState1 "main.loop_counter" = Except.ok 9 ∧
     readSlot loopState2 "main.loop_counter" = Except.ok 8 ∧
     readSlot loopState3 "main.loop_counter" = Except.ok 7 ∧
     readSlot loopState4 "main.loop_counter" = Except.ok 6 ∧
     readSlot loopState5 "main.loop_counter" = Except.ok 5) ∧
    (execSeq prog05.funcs 50 [] "main" loopState0 loopBody =
      some (Except.ok (Outcome.normal, loopState1)) ∧
     execSeq prog05.funcs 50 [] "main" loopState1 loopBody =
      some (Except.ok (Outcome.normal, loopState2)) ∧
     execSeq prog05.funcs 50 [] "main" loopState2 loopBody =
      some (Except.ok (Outcome.normal, loopState3)) ∧
     execSeq prog05.funcs 50 [] "main" loopState3 loopBody =
      some (Except.ok (Outcome.normal, loopState4)) ∧
     execSeq prog05.funcs 50 [] "main" loopState4 loopBody =
      some (Except.ok (Outcome.normal, loopState5))) ∧
    execSeq prog05.funcs 100 [] "main" loopState0 [Stmt.whileS loopCond loopBody] =
      some (Except.ok (Outcome.normal, loopState5)) ∧
    execSeq prog05.funcs 100 [] "main" loopState5 [Stmt.whileS loopCond loopBody] =
      some (Except.ok (Outcome.normal, loopState5)) :=
  ⟨rfl, ⟨rfl, rfl, rfl, rfl, rfl, rfl⟩, ⟨rfl, rfl, rfl, rfl, rfl, rfl⟩,
   ⟨rfl, rfl, rfl, rfl, rfl⟩, rfl, rfl⟩

/-- C4: running fixture 05 to completion, the state after the loop has
loop_counter 5 and returned_from_func 5, the trailing if condition 5
greater than 1 is true, executing that if decrements returned_from_func to
4, and the final state has main.loop_counter 5 and main.returned_from_func
4. -/
theorem fixture05_final_state :
    execSeq prog05.funcs 200 [] "main" [] (prog05.mainBody.take 7) =
      some (Except.ok (Outcome.normal, loopState5)) ∧
    readSlot loopState5 "main.returned_from_func" = Except.ok 5 ∧
    evalCond "main" loopState5
      (Cond.gt (Expr.var "loop_counter") (Expr.var "lower_limit")) =
      Except.ok true ∧
    execSeq prog05.funcs 100 [] "main" loopState5
      [Stmt.ifS (Cond.gt (Expr.var "loop_counter") (Expr.var "lower_limit"))
        [Stmt.assign "returned_from_func"
          (Expr.sub (Expr.var "returned_from_func") (Expr.lit 1))]] =
      some (Except.ok (Outcome.normal, finalState05)) ∧
    runProgram prog05 200 = some (Except.ok finalState05) ∧
    readSlot finalState05 "main.loop_counter" = Except.ok 5 ∧
    readSlot finalState05 "main.returned_from_func" = Except.ok 4 :=
  ⟨rfl, rfl, rfl, rfl, rfl, rfl, rfl⟩

/-- C8: the Symbol Table contract: declare creates a zero slot when absent
and is the identity when present, read yields the current value and fails
with UnboundVariable when never declared, write overwrites a present slot
and fails with UnboundVariable when absent; re-executing a declaration with
an initializer re-runs the write while a bare re-declaration leaves the
table unchanged. -/
theorem symbol_table_contract :
    (∀ st m, lookupSlot st m = none → lookupSlot (declare st m) m = some 0) ∧
    (∀ st m v, lookupSlot st m = some v → declare st m = st) ∧
    (∀ st m v, lookupSlot st m = some v → readSlot st m = Except.ok v) ∧
    (∀ st m, lookupSlot st m = none →
      readSlot st m = Except.error Err.UnboundVariable) ∧
    (∀ st m w v, lookupSlot st m = some w →
      writeSlot st m v = Except.ok (updateSlot st m v) ∧
      readSlot (updateSlot st m v) m = Except.ok v) ∧
    (∀ st m v, lookupSlot st m = none →
      writeSlot st m v = Except.error Err.UnboundVariable) ∧
    (∀ run P active q st x w, lookupSlot st (mangle q x) = some w →
      execStmt1 run P active q st (Stmt.declBare x) =
        some (Except.ok (Outcome.normal, st))) ∧
    (∀ run P active q st x e v w, lookupSlot st (mangle q x) = some w →
      evalExpr q st e = Except.ok v →
      execStmt1 run P active q st (Stmt.declInit x e) =
        some (Except.ok (Outcome.normal, updateSlot st (mangle q x) v))) := by
  refine ⟨?_, ?_, ?_, ?_, ?_, ?_, ?_, ?_⟩
  · intro st m h
    simp [lookupSlot_declare_self, h]
  · intro st m v h
    exact declare_present st m v h
  · intro st m v h
    simp [readSlot, h]
  · intro st m h
    simp [readSlot, h]
  · intro st m w v h
    exact ⟨writeSlot_present st m w v h,
      by simp [readSlot, lookupSlot_update_self st m w v h]⟩
  · intro st m v h
    exact writeSlot_absent st m v h
  · intro run P active q st x w h
    simp [execStmt1, declare_present _ _ _ h]
  · intro run P active q st x e v w h he
    simp [execStmt1, declare_present _ _ _ h, he, writeSlot_present _ _ _ _ h]

/-- Witness for the Symbol Table contract at concrete inputs. -/
theorem symbol_table_contract_witness :
    lookupSlot (declare [] "main.x") "main.x" = some 0 ∧
    execStmt1 (fun _ _ _ _ => none) [] [] "main" [("main.x", 7)]
      (Stmt.declBare "x") = some (Except.ok (Outcome.normal, [("main.x", 7)])) ∧
    execStmt1 (fun _ _ _ _ => none) [] [] "main" [("main.x", 7)]
      (Stmt.declInit "x" (Expr.lit 2)) =
      some (Except.ok (Outcome.normal, updateSlot [("main.x", 7)] "main.x" 2)) :=
  ⟨symbol_table_contract.1 [] "main.x" rfl,
   symbol_table_contract.2.2.2.2.2.2.1 (fun _ _ _ _ => none) [] [] "main"
     [("main.x", 7)] "x" 7 rfl,
   symbol_table_contract.2.2.2.2.2.2.2 (fun _ _ _ _ => none) [] [] "main"
     [("main.x", 7)] "x" (Expr.lit 2) 2 7 rfl rfl⟩

/-- C5: a bare call statement and an assignment from the same call, run
from the same state, produce symbol tables agreeing on every slot other
than the assignment target; in particular the callee internal slot
mutations are identical whether or not the result is used. -/
theorem discarded_call_preserves_callee_slots
    (run : List String → String → SymTab → List Stmt → ExecM)
    (P : Funcs) (active : List String) (q : String) (st : SymTab)
    (f x : String) (a : Expr) (o₁ o₂ : Outcome) (st₁ st₂ : SymTab)
    (h₁ : execStmt1 run P active q st (Stmt.callStmt f a) =
      some (Except.ok (o₁, st₁)))
    (h₂ : execStmt1 run P active q st (Stmt.assignCall x f a) =
      some (Except.ok (o₂, st₂))) :
    ∀ m, m ≠ mangle q x → lookupSlot st₂ m = lookupSlot st₁ m := by
  intro m hm
  simp only [execStmt1] at h₁ h₂
  cases he : evalExpr q st a with
  | error er => rw [he] at h₁; simp at h₁
  | ok v =>
    rw [he] at h₁ h₂
    simp only at h₁ h₂
    cases hc : callFn run P active st f v with
    | none => rw [hc] at h₁; simp at h₁
    | some res =>
      rw [hc] at h₁ h₂
      cases res with
      | error er => simp at h₁
      | ok pr =>
        obtain ⟨rv, stc⟩ := pr
        simp only [Option.some.injEq, Except.ok.injEq, Prod.mk.injEq] at h₁
        cases hw : writeSlot stc (mangle q x) rv with
        | error er => simp only [hw] at h₂; simp at h₂
        | ok stw =>
          simp only [hw, Option.some.injEq, Except.ok.injEq, Prod.mk.injEq] at h₂
          rw [← h₁.2, ← h₂.2]
          exact writeSlot_ok_lookup_ne stc stw (mangle q x) m rv hw hm

/-- Witness for the discarded-call property on the third call of fixture
04: from the state after the second call, the bare call and the assigning
call agree on the shared slot my_decrement.x. -/
theorem discarded_call_preserves_callee_slots_witness :
    lookupSlot [("my_decrement.x", 3), ("main.final_result", 3),
      ("main.initial_val", 10)] "my_decrement.x" =
    lookupSlot [("my_decrement.x", 3), ("main.final_result", 4),
      ("main.initial_val", 10)] "my_decrement.x" :=
  discarded_call_preserves_callee_slots (execSeq prog04.funcs 50)
    prog04.funcs [] "main"
    [("my_decrement.x", 4), ("main.final_result", 4), ("main.initial_val", 10)]
    "my_decrement" "final_result" (Expr.var "final_result")
    Outcome.normal Outcome.normal
    [("my_decrement.x", 3), ("main.final_result", 4), ("main.initial_val", 10)]
    [("my_decrement.x", 3), ("main.final_result", 3), ("main.initial_val", 10)]
    rfl rfl "my_decrement.x" (by decide)

/-- C7: invoking a function already active on the current chain fails with
ReentrantCall: the invoker rejects it before touching any slot, a call
statement or call assignment whose argument evaluates surfaces exactly
that error, and an erroneous statement aborts the executing sequence with
the same error. -/
theorem reentrant_call_rejected :
    (∀ run P active st f v, f ∈ active →
      callFn run P active st f v = some (Except.error Err.ReentrantCall)) ∧
    (∀ run P active q st f a v x, f ∈ active → evalExpr q st a = Except.ok v →
      execStmt1 run P active q st (Stmt.callStmt f a) =
        some (Except.error Err.ReentrantCall) ∧
      execStmt1 run P active q st (Stmt.assignCall x f a) =
        some (Except.error Err.ReentrantCall)) ∧
    (∀ P fuel active q st s rest er,
      execStmt1 (execSeq P fuel) P active q st s = some (Except.error er) →
      execSeq P (fuel + 1) active q st (s :: rest) = some (Except.error er)) := by
  refine ⟨?_, ?_, ?_⟩
  · intro run P active st f v h
    simp [callFn, h]
  · intro run P active q st f a v x h he
    constructor
    · simp [execStmt1, he, callFn, h]
    · simp [execStmt1, he, callFn, h]
  · intro P fuel active q st s rest er hs
    simp [execSeq, hs]

/-- Witness for the reentrancy guard at a concrete chain. -/
theorem reentrant_call_rejected_witness :
    callFn (fun _ _ _ _ => none) prog04.funcs ["my_decrement"]
      [("my_decrement.x", 9)] "my_decrement" 5 =
      some (Except.error Err.ReentrantCall) :=
  reentrant_call_rejected.1 (fun _ _ _ _ => none) prog04.funcs
    ["my_decrement"] [("my_decrement.x", 9)] "my_decrement" 5 (by simp)

/-- C9: the argument of a call is evaluated once in the caller's scope
before the body runs, so replacing the argument by the literal holding its
value changes nothing; a return statement stops its sequence immediately
with the evaluated value regardless of the remaining statements; and the
invoker yields the returned value of the body, or fails with MissingReturn
when the body completes normally. -/
theorem call_by_value_and_return :
    (∀ run P active q st x f a v, evalExpr q st a = Except.ok v →
      execStmt1 run P active q st (Stmt.assignCall x f a) =
        execStmt1 run P active q st (Stmt.assignCall x f (Expr.lit v)) ∧
      execStmt1 run P active q st (Stmt.callStmt f a) =
        execStmt1 run P active q st (Stmt.callStmt f (Expr.lit v))) ∧
    (∀ P fuel active q st e rest v, evalExpr q st e = Except.ok v →
      execSeq P (fuel + 1) active q st (Stmt.ret e :: rest) =
        some (Except.ok (Outcome.returned v, st))) ∧
    (∀ run P active st f v fd st3 rv, f ∉ active → lookupFn P f = some fd →
      run (f :: active) f
        (updateSlot (declare st (mangle f fd.param)) (mangle f fd.param) v)
        fd.body = some (Except.ok (Outcome.returned rv, st3)) →
      callFn run P active st f v = some (Except.ok (rv, st3))) ∧
    (∀ run P active st f v fd st3, f ∉ active → lookupFn P f = some fd →
      run (f :: active) f
        (updateSlot (declare st (mangle f fd.param)) (mangle f fd.param) v)
        fd.body = some (Except.ok (Outcome.normal, st3)) →
      callFn run P active st f v = some (Except.error Err.MissingReturn)) := by
  refine ⟨?_, ?_, ?_, ?_⟩
  · intro run P active q st x f a v he
    constructor
    · simp [execStmt1, he, evalExpr]
    · simp [execStmt1, he, evalExpr]
  · intro P fuel active q st e rest v he
    simp [execSeq, execStmt1, he]
  · intro run P active st f v fd st3 rv hf hfd hrun
    simp [callFn, hf, hfd, writeSlot_declare, hrun]
  · intro run P active st f v fd st3 hf hfd hrun
    simp [callFn, hf, hfd, writeSlot_declare, hrun]

/-- Witness for the call contract: my_decrement applied to 10 from an empty
table returns 9, and a return statement at the head of a sequence discards
the rest. -/
theorem call_by_value_and_return_witness :
    callFn (execSeq prog04.funcs 50) prog04.funcs [] [] "my_decrement" 10 =
      some (Except.ok (9, [("my_decrement.x", 9)])) ∧
    execSeq prog04.funcs 50 [] "main" [("main.r", 0)]
      [Stmt.ret (Expr.lit 3), Stmt.assign "r" (Expr.lit 5)] =
      some (Except.ok (Outcome.returned 3, [("main.r", 0)])) :=
  ⟨call_by_value_and_return.2.2.1 (execSeq prog04.funcs 50) prog04.funcs []
     [] "my_decrement" 10 myDecrementDef [("my_decrement.x", 9)] 9
     (by simp) rfl rfl,
   call_by_value_and_return.2.1 prog04.funcs 49 [] "main" [("main.r", 0)]
     (Expr.lit 3) [Stmt.assign "r" (Expr.lit 5)] 3 rfl⟩

/-- The invoker is monotone in its body executor: a produced result is
preserved when the executor is replaced by one that refines it. -/
theorem callFn_mono (run run' : List String → String → SymTab → List Stmt → ExecM)
    (h : runLE run run') (P : Funcs) (active : List String) (st : SymTab)
    (f : String) (v : Int) (r : Except Err (Int × SymTab))
    (hc : callFn run P active st f v = some r) :
    callFn run' P active st f v = some r := by
  unfold callFn at hc ⊢
  by_cases hf : f ∈ active
  · simp only [if_pos hf] at hc ⊢
    exact hc
  · simp only [if_neg hf] at hc ⊢
    cases hl : lookupFn P f with
    | none => simp only [hl] at hc; exact hc
    | some fd =>
      simp only [hl] at hc
      cases hw : writeSlot (declare st (mangle f fd.param)) (mangle f fd.param) v with
      | error er => simp only [hw] at hc ⊢; exact hc
      | ok st2 =>
        simp only [hw] at hc ⊢
        cases hr : run (f :: active) f st2 fd.body with
        | none => simp [hr] at hc
        | some x =>
          simp only [hr] at hc
          simp only [h _ _ _ _ _ hr]
          exact hc

/-- The single-statement executor is monotone in the sequence executor
supplied for nested bodies and calls. -/
theorem execStmt1_mono (run run' : List String → String → SymTab → List Stmt → ExecM)
    (h : runLE run run') (P : Funcs) (active : List String) (q : String)
    (st : SymTab) (s : Stmt) (r : Except Err (Outcome × SymTab))
    (hs : execStmt1 run P active q st s = some r) :
    execStmt1 run' P active q st s = some r := by
  cases s with
  | declBare x => exact hs
  | declInit x e => exact hs
  | assign x e => exact hs
  | ret e => exact hs
  | assignCall x f a =>
    simp only [execStmt1] at hs ⊢
    cases he : evalExpr q st a with
    | error er => simp only [he] at hs; exact hs
    | ok v =>
      simp only [he] at hs
      cases hc : callFn run P active st f v with
      | none => simp [hc] at hs
      | some x1 =>
        simp only [hc] at hs
        simp only [callFn_mono run run' h P active st f v x1 hc]
        exact hs
  | callStmt f a =>
    simp only [execStmt1] at hs ⊢
    cases he : evalExpr q st a with
    | error er => simp only [he] at hs; exact hs
    | ok v =>
      simp only [he] at hs
      cases hc : callFn run P active st f v with
      | none => simp [hc] at hs
      | some x1 =>
        simp only [hc] at hs
        simp only [callFn_mono run run' h P active st f v x1 hc]
        exact hs
  | ifS c body =>
    simp only [execStmt1] at hs ⊢
    cases he : evalCond q st c with
    | error er => simp only [he] at hs; exact hs
    | ok b =>
      simp only [he] at hs
      cases b with
      | false => exact hs
      | true => exact h _ _ _ _ _ hs
  | whileS c body =>
    simp only [execStmt1] at hs ⊢
    cases he : evalCond q st c with
    | error er => simp only [he] at hs; exact hs
    | ok b =>
      simp only [he] at hs
      cases b with
      | false => exact hs
      | true =>
        cases hr : run active q st body with
        | none => simp [hr] at hs
        | some x1 =>
          simp only [hr] at hs
          simp only [h _ _ _ _ _ hr]
          cases x1 with
          | error er => exact hs
          | ok pr =>
            obtain ⟨o, st1⟩ := pr
            cases o with
            | returned v => exact hs
            | normal => exact h _ _ _ _ _ hs

/-- Adding one unit of fuel preserves any produced result of the sequence
executor. -/
theorem execSeq_mono_succ (P : Funcs) :
    ∀ (fuel : Nat), runLE (execSeq P fuel) (execSeq P (fuel + 1)) := by
  intro fuel
  induction fuel with
  | zero => intro a q st l r hr; simp [execSeq] at hr
  | succ fuel ih =>
    intro a q st l r hr
    cases l with
    | nil => exact hr
    | cons s rest =>
      simp only [execSeq] at hr ⊢
      cases hs : execStmt1 (execSeq P fuel) P a q st s with
      | none => simp only [hs] at hr; simp at hr
      | some x =>
        simp only [hs] at hr
        simp only [execStmt1_mono (execSeq P fuel) (execSeq P (fuel + 1)) ih P a q st s x hs]
        cases x with
        | error er => exact hr
        | ok pr =>
          obtain ⟨o, st1⟩ := pr
          cases o with
          | returned v => exact hr
          | normal => exact ih a q st1 rest r hr

/-- Any amount of extra fuel preserves a produced result of the sequence
executor. -/
theorem execSeq_mono_le (P : Funcs) (fuel fuel' : Nat) (hle : fuel ≤ fuel')
    (a : List String) (q : String) (st : SymTab) (l : List Stmt)
    (r : Except Err (Outcome × SymTab))
    (hr : execSeq P fuel a q st l = some r) :
    execSeq P fuel' a q st l = some r := by
  induction hle with
  | refl => exact hr
  | step h ih => exact execSeq_mono_succ P _ a q st l r ih

/-- Extra fuel preserves a produced result of a whole program run. -/
theorem runProgram_mono (prog : Program) (fuel fuel' : Nat)
    (hle : fuel ≤ fuel') (r : Except Err SymTab)
    (hr : runProgram prog fuel = some r) : runProgram prog fuel' = some r := by
  unfold runProgram at hr ⊢
  cases hs : execSeq prog.funcs fuel [] "main" [] prog.mainBody with
  | none => rw [hs] at hr; simp at hr
  | some x =>
    rw [hs] at hr
    rw [execSeq_mono_le prog.funcs fuel fuel' hle [] "main" [] prog.mainBody x hs]
    exact hr

/-- C6: executing a program with no while statement is deterministic: any
two completed runs of the executor on the identical input program, however
much fuel each was given, produce the identical final slot mapping. -/
theorem while_free_deterministic (prog : Program)
    (hwf : progWhileFree prog = true) (fuel₁ fuel₂ : Nat) (st₁ st₂ : SymTab)
    (h₁ : runProgram prog fuel₁ = some (Except.ok st₁))
    (h₂ : runProgram prog fuel₂ = some (Except.ok st₂)) : st₁ = st₂ := by
  rcases le_total fuel₁ fuel₂ with hle | hle
  · have hm := runProgram_mono prog fuel₁ fuel₂ hle _ h₁
    rw [hm] at h₂
    simp only [Option.some.injEq, Except.ok.injEq] at h₂
    exact h₂
  · have hm := runProgram_mono prog fuel₂ fuel₁ hle _ h₂
    rw [hm] at h₁
    simp only [Option.some.injEq, Except.ok.injEq] at h₁
    exact h₁.symm

/-- Witness for determinism: fixture 04 contains no while statement and
two runs with different fuel agree. -/
theorem while_free_deterministic_witness :
    progWhileFree prog04 = true ∧
    runProgram prog04 100 = some (Except.ok finalState04) ∧
    runProgram prog04 150 = some (Except.ok finalState04) ∧
    finalState04 = finalState04 :=
  ⟨rfl, rfl, rfl,
   while_free_deterministic prog04 rfl 100 150 finalState04 finalState04 rfl rfl⟩

/-- Unfolding equation for the executor on an empty sequence. -/
theorem execSeq_nil_eq (P : Funcs) (fuel : Nat) (a : List String) (q : String)
    (st : SymTab) :
    execSeq P (fuel + 1) a q st [] = some (Except.ok (Outcome.normal, st)) := rfl

/-- Unfolding equation for the executor on a nonempty sequence. -/
theorem execSeq_cons_eq (P : Funcs) (fuel : Nat) (a : List String) (q : String)
    (st : SymTab) (s : Stmt) (rest : List Stmt) :
    execSeq P (fuel + 1) a q st (s :: rest) =
      match execStmt1 (execSeq P fuel) P a q st s with
      | none => none
      | some (Except.error er) => some (Except.error er)
      | some (Except.ok (Outcome.returned v, st1)) =>
        some (Except.ok (Outcome.returned v, st1))
      | some (Except.ok (Outcome.normal, st1)) => execSeq P fuel a q st1 rest := rfl

/-- Executing the body of process_number from any state whose parameter
slot holds n returns the value n minus one when n exceeds 2 and n
otherwise, whatever values its other slots carry. -/
theorem process_number_body_exec (fuel : Nat) (a : List String) (stA : SymTab)
    (n : Int) (hnum : lookupSlot stA (mangle "process_number" "num") = some n) :
    ∃ st', execSeq prog05.funcs (fuel + 7) a "process_number" stA
      processNumberDef.body =
      some (Except.ok (Outcome.returned (if 2 < n then n - 1 else n), st')) := by
  have hthr_num : mangle "process_number" "threshold" ≠ mangle "process_number" "num" := by
    decide
  have hpv_num : mangle "process_number" "processed_val_in_func" ≠
      mangle "process_number" "num" := by decide
  have hpv_thr : mangle "process_number" "processed_val_in_func" ≠
      mangle "process_number" "threshold" := by decide
  have hBthr : lookupSlot
      (updateSlot (declare stA (mangle "process_number" "threshold"))
        (mangle "process_number" "threshold") 2)
      (mangle "process_number" "threshold") = some 2 :=
    lookupSlot_update_self _ _ _ _ (lookupSlot_declare_self stA _)
  have hBnum : lookupSlot
      (updateSlot (declare stA (mangle "process_number" "threshold"))
        (mangle "process_number" "threshold") 2)
      (mangle "process_number" "num") = some n := by
    rw [lookupSlot_update_ne _ _ _ _ (Ne.symm hthr_num),
      lookupSlot_declare_ne _ _ _ (Ne.symm hthr_num)]
    exact hnum
  have hCnum : lookupSlot
      (declare
        (updateSlot (declare stA (mangle "process_number" "threshold"))
          (mangle "process_number" "threshold") 2)
        (mangle "process_number" "processed_val_in_func"))
      (mangle "process_number" "num") = some n := by
    rw [lookupSlot_declare_ne _ _ _ (Ne.symm hpv_num)]
    exact hBnum
  have hCpv := lookupSlot_declare_self
    (updateSlot (declare stA (mangle "process_number" "threshold"))
      (mangle "process_number" "threshold") 2)
    (mangle "process_number" "processed_val_in_func")
  have hDpv := lookupSlot_update_self _ _ _ n hCpv
  have hDthr : lookupSlot
      (updateSlot
        (declare
          (updateSlot (declare stA (mangle "process_number" "threshold"))
            (mangle "process_number" "threshold") 2)
          (mangle "process_number" "processed_val_in_func"))
        (mangle "process_number" "processed_val_in_func") n)
      (mangle "process_number" "threshold") = some 2 := by
    rw [lookupSlot_update_ne _ _ _ _ (Ne.symm hpv_thr),
      lookupSlot_declare_ne _ _ _ (Ne.symm hpv_thr)]
    exact hBthr
  have hEpv := lookupSlot_update_self _ _ _ (n - 1) hDpv
  refine ⟨if 2 < n then
      updateSlot
        (updateSlot
          (declare
            (updateSlot (declare stA (mangle "process_number" "threshold"))
              (mangle "process_number" "threshold") 2)
            (mangle "process_number" "processed_val_in_func"))
          (mangle "process_number" "processed_val_in_func") n)
        (mangle "process_number" "processed_val_in_func") (n - 1)
    else
      updateSlot
        (declare
          (updateSlot (declare stA (mangle "process_number" "threshold"))
            (mangle "process_number" "threshold") 2)
          (mangle "process_number" "processed_val_in_func"))
        (mangle "process_number" "processed_val_in_func") n, ?_⟩
  by_cases hn : 2 < n
  · simp only [if_pos hn, decide_eq_true hn, processNumberDef, execSeq_cons_eq,
      execSeq_nil_eq, execStmt1, evalExpr, evalCond, readSlot, writeSlot_declare,
      hCnum, writeSlot_present _ _ _ n hCpv, hDpv, hDthr,
      writeSlot_present _ _ _ (n - 1) hDpv, hEpv, if_true, eq_self_iff_true]
  · simp only [if_neg hn, decide_eq_false hn, processNumberDef, execSeq_cons_eq,
      execSeq_nil_eq, execStmt1, evalExpr, evalCond, readSlot, writeSlot_declare,
      hCnum, writeSlot_present _ _ _ n hCpv, hDpv, hDthr,
      Bool.false_eq_true, if_false]

/-- C10: process_number is functionally pure in its argument: called with
any integer n, from any prior symbol-table state and any chain not already
containing it, it returns n minus 1 when n exceeds 2 and n unchanged
otherwise; the slot sharing across calls is never observable in the
returned value. -/
theorem process_number_pure (n : Int) (st : SymTab) (active : List String)
    (fuel : Nat) (h : "process_number" ∉ active) :
    ∃ st', callFn (execSeq prog05.funcs (fuel + 7)) prog05.funcs active st
      "process_number" n =
      some (Except.ok ((if 2 < n then n - 1 else n), st')) := by
  have hAnum : lookupSlot
      (updateSlot (declare st (mangle "process_number" "num"))
        (mangle "process_number" "num") n)
      (mangle "process_number" "num") = some n :=
    lookupSlot_update_self _ _ _ _ (lookupSlot_declare_self st _)
  obtain ⟨st', hbody⟩ := process_number_body_exec fuel ("process_number" :: active)
    (updateSlot (declare st (mangle "process_number" "num"))
      (mangle "process_number" "num") n) n hAnum
  refine ⟨st', ?_⟩
  simp only [callFn, if_neg h,
    show lookupFn prog05.funcs "process_number" = some processNumberDef from rfl,
    show processNumberDef.param = "num" from rfl, writeSlot_declare, hbody]

/-- Witness for the purity of process_number: called with 5 on the empty
table it returns 4, and called with 2 it returns 2. -/
theorem process_number_pure_witness :
    (∃ st', callFn (execSeq prog05.funcs 20) prog05.funcs [] []
      "process_number" 5 = some (Except.ok (4, st'))) ∧
    (∃ st', callFn (execSeq prog05.funcs 20) prog05.funcs [] []
      "process_number" 2 = some (Except.ok (2, st'))) := by
  constructor
  · obtain ⟨st', hst⟩ := process_number_pure 5 [] [] 13 (by simp)
    exact ⟨st', hst⟩
  · obtain ⟨st', hst⟩ := process_number_pure 2 [] [] 13 (by simp)
    exact ⟨st', hst⟩

end MicroSim
